import Mathlib

/- Shallow embedding of the live transcription session coordinator of
   src/lib/transcription/live-manager.ts (second revision in the file, the one
   with periodic flushing) and of the client PCM encoder of
   src/lib/audio/encoding.ts.

   Conventions used throughout:
   - JS strings are Lean `String`s; character-level work happens on `String.data`.
   - Node `Buffer`s are `List Nat` (the byte values).
   - Floating point loudness values are modelled exactly over `Rat`.  Every
     comparison `Math.sqrt (sum / n) < t` in the source is rendered as the
     equivalent squared comparison `sum / n < t ^ 2` (both sides nonnegative,
     square root monotone).  The JS NaN-for-empty-buffer case, where every
     comparison is false, is rendered by an explicit nonemptiness conjunct.
   - Timestamps are `Nat` milliseconds; `Date.now()` is an explicit parameter. -/

namespace VoiceKeyboard

/-! JS string primitives used by live-manager.ts -/

/-- Model of the JS whitespace class for the ASCII range (space, tab, CR, LF). -/
def jsIsWs (c : Char) : Bool :=
  c.isWhitespace

/-- Model of `String.prototype.trim` on a character list. -/
def trimL (l : List Char) : List Char :=
  ((l.dropWhile jsIsWs).reverse.dropWhile jsIsWs).reverse

/-- Model of `text.trim()` on a whole string. -/
def jsTrim (s : String) : String :=
  ⟨trimL s.data⟩

/-- Model of `text.split(/[.!?]\s*/)`: cut at every terminal punctuation
mark, consuming the whitespace run that follows it.  The `skipping` flag is
true while the tail of a match (the `\s*` part) is still being consumed. -/
def splitPunct : List Char → List Char → Bool → List (List Char)
  | [], acc, _ => [acc.reverse]
  | c :: rest, acc, skipping =>
    if skipping && jsIsWs c then
      splitPunct rest acc true
    else if c = '.' ∨ c = '!' ∨ c = '?' then
      acc.reverse :: splitPunct rest [] true
    else
      splitPunct rest (c :: acc) false

/-- Model of `text.split(/\s+/)`: cut at every whitespace run.  The
`skipping` flag is true while the matched run is still being consumed. -/
def splitWsRun : List Char → List Char → Bool → List (List Char)
  | [], acc, _ => [acc.reverse]
  | c :: rest, acc, skipping =>
    if skipping && jsIsWs c then
      splitWsRun rest acc true
    else if jsIsWs c then
      acc.reverse :: splitWsRun rest [] true
    else
      splitWsRun rest (c :: acc) false

/-- Lowercased character list of a string, as `text.toLowerCase()` produces for
ASCII text. -/
def jsLower (s : String) : List Char :=
  s.data.map Char.toLower

/-- The `phrases` list of `detectHallucination`:
`text.toLowerCase().split(/[.!?]\s*/)`. -/
def jsPhrases (s : String) : List (List Char) :=
  splitPunct (jsLower s) [] false

/-- The `words` list of `detectHallucination`:
`text.toLowerCase().split(/\s+/)`. -/
def jsWords (s : String) : List (List Char) :=
  splitWsRun (jsLower s) [] false

/-! The phrase-count map of `detectHallucination` (a JS `Map<string, number>`)
as an association list. -/

/-- Lookup in the phrase-count map; a missing key counts as `0`, as
`(phraseCount.get(normalized) || 0)` does. -/
def lookupCount : List (List Char × Nat) → List Char → Nat
  | [], _ => 0
  | (k, v) :: rest, n => if k = n then v else lookupCount rest n

/-- Model of `Map.prototype.set`: replace the binding if the key is present,
otherwise append it. -/
def setCount : List (List Char × Nat) → List Char → Nat → List (List Char × Nat)
  | [], k, v => [(k, v)]
  | (k', v') :: rest, k, v =>
    if k' = k then (k, v) :: rest else (k', v') :: setCount rest k v

/-- The phrase-repetition loop of `detectHallucination` (live-manager.ts
lines 442-451): bump the count of each trimmed fragment longer than 5
characters, returning `true` as soon as a count reaches 3. -/
def phraseLoop : List (List Char) → List (List Char × Nat) → Bool
  | [], _ => false
  | p :: ps, m =>
    let n := trimL p
    if 5 < n.length then
      let c := lookupCount m n + 1
      if 3 ≤ c then true else phraseLoop ps (setCount m n c)
    else
      phraseLoop ps m

/-- The consecutive-word-repetition loop of `detectHallucination`
(live-manager.ts lines 454-465): `prev` is `words[i-1]`, `cnt` the running
`consecutiveCount`. -/
def wordScan : List (List Char) → List Char → Nat → Bool
  | [], _, _ => false
  | w :: ws, prev, cnt =>
    if w = prev ∧ 2 < w.length then
      let c := cnt + 1
      if 5 ≤ c then true else wordScan ws w c
    else
      wordScan ws w 1

/-- Entry point of the word-repetition check, starting at index 1 with
`consecutiveCount = 1`. -/
def wordCheck : List (List Char) → Bool
  | [] => false
  | w :: ws => wordScan ws w 1

/-- Model of `detectHallucination` (live-manager.ts lines 432-468).  The guard
`!text || text.length < 20` returns `false` for short input; then the
phrase-repetition check runs with an early `return true`, and finally the
consecutive-word-repetition check. -/
def detectHallucination (text : String) : Bool :=
  if text = "" ∨ text.length < 20 then false
  else if phraseLoop (jsPhrases text) [] then true
  else wordCheck (jsWords text)

/-! Vocabulary prompt construction at session start
(startLiveTranscription, live-manager.ts lines 511-531). -/

/-- A dictionary entry as read from the store (priority-descending order is the
query order `orderBy: priority desc`). -/
structure DictionaryEntry where
  phrase : String
  canonical : Option String
  substitution : Option String
  notes : Option String
  priority : Int
  deriving DecidableEq

/-- The term contributed by one entry: `entry.canonical || entry.phrase`, where
a null or empty canonical falls back to the phrase (JS falsiness). -/
def termOf (e : DictionaryEntry) : String :=
  match e.canonical with
  | some c => if c = "" then e.phrase else c
  | none => e.phrase

/-- The accumulation loop over the dictionary: `isFirst` is `terms.length === 0`
and `len` is `currentLength`.  An entry whose separator-inclusive length would
push `currentLength` past 224 stops the loop (the `break`). -/
def startPromptLoop : List DictionaryEntry → Bool → Nat → List String
  | [], _, _ => []
  | e :: rest, isFirst, len =>
    let term := termOf e
    let extra := if isFirst then term.length else term.length + 2
    if len + extra ≤ 224 then
      term :: startPromptLoop rest false (len + extra)
    else
      []

/-- The selected terms of the vocabulary prompt. -/
def startPromptTerms (dictionary : List DictionaryEntry) : List String :=
  startPromptLoop dictionary true 0

/-- Model of `terms.join(", ")`. -/
def joinComma : List String → String
  | [] => ""
  | [t] => t
  | t :: rest => t ++ ", " ++ joinComma rest

/-- The `whisperPrompt` built by `startLiveTranscription`: `undefined` when the
dictionary is empty, otherwise the joined selected terms. -/
def startWhisperPrompt (dictionary : List DictionaryEntry) : Option String :=
  if dictionary.isEmpty then none
  else some (joinComma (startPromptTerms dictionary))

/-! Audio buffers and loudness (calculateBufferRMS, live-manager.ts
lines 471-479).  A Buffer is a byte list; `new Int16Array(...)` reads
little-endian signed 16-bit samples, dropping a trailing odd byte. -/

/-- Reinterpret a 16-bit word as a signed value, as `Int16Array` storage does. -/
def toSigned16 (n : Nat) : Int :=
  if n % 65536 < 32768 then (n % 65536 : Int) else (n % 65536 : Int) - 65536

/-- Little-endian 16-bit samples of a byte buffer. -/
def bytesToInt16 : List Nat → List Int
  | b0 :: b1 :: rest => toSigned16 (b0 + 256 * b1) :: bytesToInt16 rest
  | _ => []

/-- Sum of squared normalized samples, the `sum` accumulated by
`calculateBufferRMS`. -/
def sumSq (samples : List Int) : ℚ :=
  (samples.map (fun s : Int => ((s : ℚ) / 32768) ^ 2)).sum

/-- Square of `calculateBufferRMS(buffer)`; the square root is never needed
because the source only compares the RMS against constant thresholds. -/
def calculateBufferRMSsq (buf : List Nat) : ℚ :=
  sumSq (bytesToInt16 buf) / ((bytesToInt16 buf).length : ℚ)

/-- Model of `calculateBufferRMS(buf) < t` (squared form `t ^ 2` is passed).
An empty sample array makes the JS value NaN, so every comparison is false:
hence the nonemptiness conjunct. -/
def rmsLtB (buf : List Nat) (tsq : ℚ) : Bool :=
  decide (bytesToInt16 buf ≠ [] ∧ calculateBufferRMSsq buf < tsq)

/-- Model of `calculateBufferRMS(buf) > t` (squared form `t ^ 2` is passed). -/
def rmsGtB (buf : List Nat) (tsq : ℚ) : Bool :=
  decide (bytesToInt16 buf ≠ [] ∧ tsq < calculateBufferRMSsq buf)

/-- Constant `MIN_AUDIO_RMS_THRESHOLD = 0.002`, squared: `0.002 ^ 2 = 1 / 250000`. -/
def minAudioRMSThresholdSq : ℚ := 1 / 250000

/-! Session data model -/

/-- Durable `TranscriptionStatus` values. -/
inductive TStatus
  | streaming
  | completed
  | failed
  | cancelled
  deriving DecidableEq

/-- The error classes of src/lib/errors consumed by the live manager and
mapped to status codes by `handleApiError` (401, 400, 404, 409). -/
inductive ApiError
  | unauthorized (msg : String)
  | badRequest (msg : String)
  | notFound (msg : String)
  | conflict (msg : String)
  deriving DecidableEq

/-- The durable transcription row, restricted to the fields the live manager
reads or writes.  `completedAt` records only whether the timestamp is set. -/
structure TranscriptionRecord where
  userId : String
  status : TStatus
  content : String
  normalizedContent : String
  durationMs : Nat
  language : String
  completedAt : Bool
  deriving DecidableEq

/-- The in-memory `SessionContext` of live-manager.ts lines 382-397.
`lastChunkRMSsq` stores the squared loudness of the last chunk (the source
field is only ever logged); an empty chunk stores `0` where JS stores NaN. -/
structure SessionContext where
  transcriptionId : String
  userId : String
  finalized : Bool
  audioChunks : List (List Nat)
  totalDurationMs : Nat
  language : String
  prompt : Option String
  lastTranscriptionTime : Nat
  accumulatedTranscript : String
  isProcessing : Bool
  processingChunkCount : Nat
  lastChunkRMSsq : ℚ
  wasSilent : Bool
  pendingDbUpdates : Nat
  deriving DecidableEq

/-! The Whisper call with retries (live-manager.ts lines 815-845). -/

/-- Outcome of one `openai.audio.transcriptions.create` attempt: success with
the returned text, a rate-limit rejection (status 429, retried with backoff),
or any other failure (not retried). -/
inductive AttemptResult
  | success (text : String)
  | rateLimited
  | fatal
  deriving DecidableEq

/-- The retry loop with `maxRetries = 2`: at most three attempts; a rate-limit
failure consumes one retry, any other failure is rethrown at once.  Returns
the transcription text when some attempt succeeds, `none` when the loop
throws, together with the number of attempts actually made. -/
def retryAux (att : Nat → AttemptResult) : Nat → Nat → Option String × Nat
  | 0, _ => (none, 0)
  | fuel + 1, idx =>
    match att idx with
    | .success t => (some t, 1)
    | .fatal => (none, 1)
    | .rateLimited =>
      let r := retryAux att fuel (idx + 1)
      (r.1, r.2 + 1)

/-- The whole `while (retryCount <= maxRetries)` loop. -/
def runWhisperWithRetries (att : Nat → AttemptResult) : Option String × Nat :=
  retryAux att 3 0

/-- Environment of one coordinator call: the current wall clock (`Date.now()`)
and the oracle giving each backend attempt its outcome. -/
structure FlushEnv where
  now : Nat
  attempts : Nat → AttemptResult

/-- Result of one `processAccumulatedAudio` run: the updated session,
the durable transcript write it issued (if any), and how many backend
attempts it made. -/
structure FlushOut where
  ctx : SessionContext
  transcriptWrite : Option String
  backendAttempts : Nat

/-- The minimum snapshot size in bytes (live-manager.ts lines 752-755):
one second of 16 kHz 16-bit audio, halved right after a pause. -/
def requiredFlushBytes (wasSilent : Bool) : Nat :=
  if wasSilent then 16000 else 32000

/-- Total byte count of a chunk list. -/
def totalBytes (chunks : List (List Nat)) : Nat :=
  (chunks.map List.length).sum

/-- Test of the regex `/[.!?,;:]$/` used for smart spacing. -/
def endsInPunct (s : String) : Bool :=
  match s.data.getLast? with
  | some c => c == '.' || c == '!' || c == '?' || c == ',' || c == ';' || c == ':'
  | none => false

/-- The transcript merge of live-manager.ts lines 866-875.  The source
computes `needsSpace` but then uses the same template string in both branches
of the ternary, so a separating space is inserted regardless; the dead
conditional is kept verbatim. -/
def appendTranscript (acc newText : String) : String :=
  if acc ≠ "" then
    let needsSpace := !(endsInPunct (jsTrim acc))
    if needsSpace then acc ++ " " ++ newText else acc ++ " " ++ newText
  else
    newText

/-- Model of `processAccumulatedAudio` (live-manager.ts lines 730-915).
`ingested` stands for the chunks pushed by concurrent `ingestAudioChunk`
calls between the snapshot of `audioChunks` and the end of the run; the
source appends them to whatever array is live at that moment.  The outer
`try/catch` never rethrows, so the model is a total function; the `catch`
branch is the `none` case of the retry loop (both the non-retryable throw
and the exhausted-retries throw land there, and the unreachable
`!transcription` guard restores identically). -/
def processAccumulatedAudio (env : FlushEnv) (ingested : List (List Nat))
    (ctx : SessionContext) : FlushOut :=
  if ctx.isProcessing || ctx.audioChunks.isEmpty then
    ⟨{ ctx with audioChunks := ctx.audioChunks ++ ingested }, none, 0⟩
  else
    let chunksToProcess := ctx.audioChunks
    let combinedAudio := chunksToProcess.flatten
    let totalAudioBytes := combinedAudio.length
    if totalAudioBytes < requiredFlushBytes ctx.wasSilent then
      ⟨{ ctx with audioChunks := chunksToProcess ++ ingested,
                  isProcessing := false, processingChunkCount := 0 }, none, 0⟩
    else if rmsLtB combinedAudio minAudioRMSThresholdSq then
      ⟨{ ctx with audioChunks := ingested, lastTranscriptionTime := env.now,
                  isProcessing := false, processingChunkCount := 0 }, none, 0⟩
    else
      let r := runWhisperWithRetries env.attempts
      match r.1 with
      | none =>
        ⟨{ ctx with audioChunks := chunksToProcess ++ ingested,
                    isProcessing := false, processingChunkCount := 0 }, none, r.2⟩
      | some text =>
        let newText := jsTrim text
        if newText ≠ "" ∧ detectHallucination newText then
          ⟨{ ctx with audioChunks := ingested, lastTranscriptionTime := env.now,
                      isProcessing := false, processingChunkCount := 0 }, none, r.2⟩
        else if newText ≠ "" then
          let updated := appendTranscript ctx.accumulatedTranscript newText
          ⟨{ ctx with audioChunks := ingested,
                      accumulatedTranscript := updated,
                      lastTranscriptionTime := env.now,
                      pendingDbUpdates := ctx.pendingDbUpdates + 1,
                      isProcessing := false, processingChunkCount := 0 },
            some updated, r.2⟩
        else
          ⟨{ ctx with audioChunks := ingested, lastTranscriptionTime := env.now,
                      isProcessing := false, processingChunkCount := 0 }, none, r.2⟩

/-! The session registry and the durable store -/

/-- Lookup in a string-keyed association list (the `Map`/row-by-id reads). -/
def lookupS {α : Type} : List (String × α) → String → Option α
  | [], _ => none
  | (k, v) :: rest, key => if k = key then some v else lookupS rest key

/-- Model of `Map.prototype.set` / keyed insert. -/
def setS {α : Type} : List (String × α) → String → α → List (String × α)
  | [], key, v => [(key, v)]
  | (k, v') :: rest, key, v =>
    if k = key then (key, v) :: rest else (k, v') :: setS rest key v

/-- Model of `Map.prototype.delete`. -/
def removeS {α : Type} : List (String × α) → String → List (String × α)
  | [], _ => []
  | (k, v) :: rest, key =>
    if k = key then removeS rest key else (k, v) :: removeS rest key

/-- Apply `f` to the value bound to `key`, if any (a prisma `update` by id;
prisma throws on a missing row, which no modelled claim exercises, so the
miss is a no-op here). -/
def updateS {α : Type} (f : α → α) : List (String × α) → String → List (String × α)
  | [], _ => []
  | (k, v) :: rest, key =>
    if k = key then (k, f v) :: rest else (k, v) :: updateS f rest key

/-- Process-wide state: the in-memory `liveSessions` registry and the durable
transcription rows. -/
structure SystemState where
  liveSessions : List (String × SessionContext)
  db : List (String × TranscriptionRecord)
  deriving DecidableEq

/-- prisma `findUnique({ where: { id, userId } })`: the row must match both. -/
def dbFind (db : List (String × TranscriptionRecord)) (id uid : String) :
    Option TranscriptionRecord :=
  match lookupS db id with
  | some r => if r.userId = uid then some r else none
  | none => none

/-- prisma `updateMany({ where: { id, userId } })`: applies when both match,
silently a no-op otherwise. -/
def dbUpdateMany (db : List (String × TranscriptionRecord)) (id uid : String)
    (f : TranscriptionRecord → TranscriptionRecord) :
    List (String × TranscriptionRecord) :=
  updateS (fun r => if r.userId = uid then f r else r) db id

/-- The log lines the specification makes observable: the crash-recovery
warning and restore notice of `ingestAudioChunk`, and the lost-session error
of `finalizeTranscription`.  Routine progress logging is not modelled. -/
inductive LogEvent
  | restoreAttempt (id : String)
  | sessionRestored (id : String)
  | finalizeSessionMissing (id : String)
  deriving DecidableEq

/-- Error message of a missing or foreign session. -/
def notFoundMsg : String := "Active transcription session not found"

/-- Error message of an ingest on a finalized session. -/
def alreadyFinalizedMsg : String := "Transcription already finalized"

/-- Durable content written when finalize finds no in-memory session. -/
def lostContentMsg : String :=
  "ERROR: Audio data was lost before transcription could be completed. This may happen if the server restarted or the session expired."

/-- Error thrown when finalize finds no in-memory session. -/
def lostSessionMsg : String := "Transcription session lost - audio data not available"

/-- Result of a `finalizeTranscription` call. -/
structure FinalizeOut where
  state : SystemState
  result : Except ApiError Unit
  logs : List LogEvent

/-- Model of `finalizeTranscription` (live-manager.ts lines 955-1031).
Awaiting `pendingDbUpdates` resets the outstanding-write counter; the
synchronous tail flush runs with no concurrently ingested chunks; the tail
flush transcript write (fire-and-forget in the source) is applied before the
final completion write that supersedes it. -/
def finalizeTranscription (env : FlushEnv) (transcriptionId userId : String)
    (st : SystemState) : FinalizeOut :=
  match lookupS st.liveSessions transcriptionId with
  | none =>
    let db1 := dbUpdateMany st.db transcriptionId userId (fun r =>
      { r with status := .failed, content := lostContentMsg, completedAt := true })
    ⟨⟨st.liveSessions, db1⟩, .error (.notFound lostSessionMsg),
      [.finalizeSessionMissing transcriptionId]⟩
  | some ctx =>
    if ctx.userId ≠ userId then
      ⟨st, .error (.notFound notFoundMsg), []⟩
    else if ctx.finalized then
      ⟨st, .ok (), []⟩
    else
      let ctx1 := { ctx with finalized := true, pendingDbUpdates := 0 }
      let fo :=
        if 0 < ctx1.audioChunks.length ∧ 0 < totalBytes ctx1.audioChunks then
          processAccumulatedAudio env [] ctx1
        else
          ⟨ctx1, none, 0⟩
      let db1 :=
        match fo.transcriptWrite with
        | some t => updateS (fun r => { r with content := t, normalizedContent := t })
            st.db transcriptionId
        | none => st.db
      let finalTranscript := fo.ctx.accumulatedTranscript
      let db2 := updateS (fun r =>
        { r with content := finalTranscript, normalizedContent := finalTranscript,
                 status := .completed, completedAt := true }) db1 transcriptionId
      ⟨⟨removeS st.liveSessions transcriptionId, db2⟩, .ok (), []⟩

/-- First dash-separated component of a BCP-47 code, defaulted:
`language.split(dash)[0]` with the empty result defaulted to en. -/
def langHead (s : String) : String :=
  match s.splitOn "-" with
  | [] => "en"
  | h :: _ => if h = "" then "en" else h

/-- Arguments of `ingestAudioChunk`; `audioData` is the already base64-decoded
byte buffer produced by `Buffer.from` on the base64 payload. -/
structure IngestArgs where
  transcriptionId : String
  userId : String
  audioData : List Nat
  durationMs : Option Nat
  isLastChunk : Bool

/-- Result of an `ingestAudioChunk` call.  `flushTriggered` reports whether
the trigger policy fired; the triggered flush runs in the background and its
effects are modelled by `processAccumulatedAudio` separately. -/
structure IngestOut where
  state : SystemState
  result : Except ApiError Unit
  logs : List LogEvent
  flushTriggered : Bool

/-- Model of `ingestAudioChunk` (live-manager.ts lines 596-727): restore a
missing session from a durably Streaming row (with empty chunks), check
ownership and finalization, append the chunk, update the rolling loudness
state, opportunistically write the duration, evaluate the flush trigger, and
on the last chunk invoke finalize synchronously. -/
def ingestAudioChunk (env : FlushEnv) (a : IngestArgs) (st : SystemState) :
    IngestOut :=
  let restored :
      Option SessionContext × List (String × SessionContext) × List LogEvent :=
    match lookupS st.liveSessions a.transcriptionId with
    | some c => (some c, st.liveSessions, [])
    | none =>
      match dbFind st.db a.transcriptionId a.userId with
      | some rec =>
        if rec.status = .streaming then
          let c : SessionContext :=
            { transcriptionId := a.transcriptionId
              userId := a.userId
              finalized := false
              audioChunks := []
              totalDurationMs := rec.durationMs
              language := langHead rec.language
              prompt := none
              lastTranscriptionTime := env.now
              accumulatedTranscript := rec.content
              isProcessing := false
              processingChunkCount := 0
              lastChunkRMSsq := 0
              wasSilent := false
              pendingDbUpdates := 0 }
          (some c, setS st.liveSessions a.transcriptionId c,
            [.restoreAttempt a.transcriptionId, .sessionRestored a.transcriptionId])
        else
          (none, st.liveSessions, [.restoreAttempt a.transcriptionId])
      | none => (none, st.liveSessions, [.restoreAttempt a.transcriptionId])
  match restored.1 with
  | none =>
    ⟨⟨restored.2.1, st.db⟩, .error (.notFound notFoundMsg), restored.2.2, false⟩
  | some ctx =>
    if ctx.userId ≠ a.userId then
      ⟨⟨restored.2.1, st.db⟩, .error (.notFound notFoundMsg), restored.2.2, false⟩
    else if ctx.finalized then
      ⟨⟨restored.2.1, st.db⟩, .error (.badRequest alreadyFinalizedMsg),
        restored.2.2, false⟩
    else
      let chunk := a.audioData
      let speechResumed := ctx.wasSilent && rmsGtB chunk (9 / 250000)
      let ctx1 := { ctx with
        audioChunks := ctx.audioChunks ++ [chunk]
        lastChunkRMSsq := calculateBufferRMSsq chunk
        wasSilent := rmsLtB chunk (1 / 62500) }
      let withDur : SessionContext × List (String × TranscriptionRecord) :=
        match a.durationMs with
        | some d =>
          if d ≠ 0 then
            let c := { ctx1 with totalDurationMs := ctx1.totalDurationMs + d,
                                 pendingDbUpdates := ctx1.pendingDbUpdates + 1 }
            (c, updateS (fun r => { r with durationMs := c.totalDurationMs })
              st.db a.transcriptionId)
          else (ctx1, st.db)
        | none => (ctx1, st.db)
      let ctx2 := withDur.1
      let live2 := setS restored.2.1 a.transcriptionId ctx2
      let shouldProcessNow := decide (1000 ≤ env.now - ctx.lastTranscriptionTime)
      let hasManyChunks := decide (10 ≤ ctx2.audioChunks.length)
      let shouldProcessResume := speechResumed && decide (5 ≤ ctx2.audioChunks.length)
      let triggered := (shouldProcessNow || hasManyChunks || shouldProcessResume)
        && !ctx2.isProcessing && decide (0 < ctx2.audioChunks.length)
      if a.isLastChunk then
        let f := finalizeTranscription env a.transcriptionId a.userId ⟨live2, withDur.2⟩
        ⟨f.state, f.result, restored.2.2 ++ f.logs, triggered⟩
      else
        ⟨⟨live2, withDur.2⟩, .ok (), restored.2.2, triggered⟩

/-! The client-side PCM encoder (src/lib/audio/encoding.ts). -/

/-- ToInt16 conversion performed by an `Int16Array` element store: reduce
modulo 2 ^ 16 and reinterpret as signed. -/
def jsToInt16 (n : Int) : Int :=
  let m := n % 65536
  if m < 32768 then m else m - 65536

/-- Truncation toward zero of a rational, as JS number-to-integer conversion
rounds. -/
def ratTrunc (q : ℚ) : Int :=
  if 0 ≤ q then ⌊q⌋ else ⌈q⌉

/-- One sample of `float32ToInt16` (encoding.ts lines 10-17): clamp to
[-1, 1], scale by 32768, store into an `Int16Array` slot.  Sample values are
exact rationals; clamping and the power-of-two scaling are exact in float32,
so no rounding is lost by the rational model. -/
def float32ToInt16Sample (v : ℚ) : Int :=
  jsToInt16 (ratTrunc (max (-1) (min 1 v) * 32768))

/-- The whole `float32ToInt16` array map. -/
def float32ToInt16 (l : List ℚ) : List Int :=
  l.map float32ToInt16Sample

/-! Specification-side predicates and concrete fixtures used by the
verification theorems below. -/

/-- Criterion (a) of the Hallucination Detector specification: some
normalized fragment longer than 5 characters occurs at least 3 times among
the terminal-punctuation splits. -/
def phraseRepeatSpec (s : String) : Prop :=
  ∃ n : List Char, 5 < n.length ∧ 3 ≤ ((jsPhrases s).map trimL).count n

/-- Criterion (b) of the Hallucination Detector specification: some word
longer than 2 characters occurs at least 5 times consecutively. -/
def wordRepeatSpec (s : String) : Prop :=
  ∃ (w : List Char) (pre post : List (List Char)),
    2 < w.length ∧ jsWords s = pre ++ List.replicate 5 w ++ post

/-- Length contributed to `joinComma` by appending `ts` to an existing list;
the flag tells whether the existing list is empty (no leading separator). -/
def addLen : Bool → List String → Nat
  | _, [] => 0
  | true, t :: ts => t.length + addLen false ts
  | false, t :: ts => 2 + t.length + addLen false ts

/-- Recognizer of a `ConflictError` outcome (handleApiError maps it to 409). -/
def isConflict : Except ApiError Unit → Bool
  | .error (.conflict _) => true
  | _ => false

/-- An environment whose backend attempts all fail with a non-retryable
error. -/
def envFatal : FlushEnv := ⟨5000, fun _ => .fatal⟩

/-- An environment whose backend attempts all succeed with the given text. -/
def envText (t : String) : FlushEnv := ⟨5000, fun _ => .success t⟩

/-- A freshly started session context for the fixtures. -/
def baseCtx : SessionContext :=
  { transcriptionId := "t1", userId := "u1", finalized := false, audioChunks := [],
    totalDurationMs := 0, language := "en", prompt := none,
    lastTranscriptionTime := 0, accumulatedTranscript := "", isProcessing := false,
    processingChunkCount := 0, lastChunkRMSsq := 0, wasSilent := false,
    pendingDbUpdates := 0 }

/-- A 32000-byte buffer of clearly voiced audio: 16000 samples of value 4096
(normalized amplitude 1/8, far above the silence floor). -/
def loudChunk : List Nat := (List.replicate 16000 [0, 16]).flatten

/-- A 32000-byte buffer of pure digital silence. -/
def silentChunk : List Nat := (List.replicate 16000 [0, 0]).flatten

/-- A durable Streaming row owned by user u1 with some prior transcript. -/
def recStreaming : TranscriptionRecord :=
  { userId := "u1", status := .streaming, content := "hello",
    normalizedContent := "hello", durationMs := 7, language := "en-US",
    completedAt := false }

/-- Fixture for the double-finalize scenario: live session with transcript
hello and no unprocessed audio, plus its durable Streaming row. -/
def finSt : SystemState :=
  ⟨[("t1", { baseCtx with accumulatedTranscript := "hello" })], [("t1", recStreaming)]⟩

/-- A live session already marked finalized (a finalize is in flight). -/
def finalizedCtx : SessionContext := { baseCtx with finalized := true }

/-- System state holding only the already-finalized session. -/
def finalizedSt : SystemState := ⟨[("t1", finalizedCtx)], []⟩

/-- Fixture for the flush theorems: a streaming session holding one voiced
32000-byte chunk and a transcript ending in a period. -/
def flushCtx : SessionContext :=
  { baseCtx with accumulatedTranscript := "Hello.", audioChunks := [loudChunk] }

/-- Fixture for the silence-skip theorem: a streaming session holding one
silent 32000-byte chunk. -/
def silentCtx : SessionContext := { baseCtx with audioChunks := [silentChunk] }

/-- Fixture for the crash-recovery theorem: empty registry, durable
Streaming row. -/
def restoreSt : SystemState := ⟨[], [("t1", recStreaming)]⟩

/-- Ingest arguments naming the fixture session with a tiny voiced chunk. -/
def ingArgs : IngestArgs := ⟨"t1", "u1", [0, 16], some 3, false⟩

/-- Five dictionary entries of 50 characters each: their full joined length
is 258, past the 224-character budget. -/
def overflowDict : List DictionaryEntry :=
  List.replicate 5
    { phrase := "aaaaaaaaaaaaaaaaaaaaaaaaaaaaaaaaaaaaaaaaaaaaaaaaaa",
      canonical := none, substitution := none, notes := none, priority := 5 }

deriving instance DecidableEq for Except

/-! Helper lemmas shared by the claim theorems. -/

theorem lookupS_setS_self {α : Type} (m : List (String × α)) (k : String) (v : α) :
    lookupS (setS m k v) k = some v := by
  induction m with
  | nil => simp [setS, lookupS]
  | cons p rest ih =>
    obtain ⟨k', v'⟩ := p
    by_cases h : k' = k
    · simp [setS, h, lookupS]
    · simp [setS, h, lookupS, ih]

theorem totalBytes_append (a b : List (List Nat)) :
    totalBytes (a ++ b) = totalBytes a + totalBytes b := by
  simp [totalBytes]

theorem bytesToInt16_flatten_replicate (n b0 b1 : Nat) :
    bytesToInt16 ((List.replicate n [b0, b1]).flatten)
      = List.replicate n (toSigned16 (b0 + 256 * b1)) := by
  induction n with
  | zero => simp [bytesToInt16]
  | succ k ih => simp [List.replicate_succ, bytesToInt16, ih]

theorem length_flatten_replicate (n b0 b1 : Nat) :
    ((List.replicate n [b0, b1]).flatten).length = 2 * n := by
  induction n with
  | zero => simp
  | succ k ih =>
    simp only [List.replicate_succ, List.flatten_cons, List.length_append, ih,
      List.length_cons, List.length_nil]
    omega

theorem sumSq_replicate (n : Nat) (s : Int) :
    sumSq (List.replicate n s) = n * (((s : ℚ) / 32768) ^ 2) := by
  induction n with
  | zero => simp [sumSq]
  | succ k ih =>
    have ih' := ih
    simp only [sumSq] at ih' ⊢
    rw [List.replicate_succ, List.map_cons, List.sum_cons, ih']
    push_cast
    ring

theorem loudChunk_length : loudChunk.length = 32000 := by
  rw [loudChunk, length_flatten_replicate]

theorem silentChunk_length : silentChunk.length = 32000 := by
  rw [silentChunk, length_flatten_replicate]

theorem rmsSq_loudChunk : calculateBufferRMSsq loudChunk = 1 / 64 := by
  rw [calculateBufferRMSsq, loudChunk, bytesToInt16_flatten_replicate,
    sumSq_replicate, List.length_replicate]
  norm_num [toSigned16]

theorem rmsSq_silentChunk : calculateBufferRMSsq silentChunk = 0 := by
  rw [calculateBufferRMSsq, silentChunk, bytesToInt16_flatten_replicate,
    sumSq_replicate, List.length_replicate]
  norm_num [toSigned16]

theorem rmsLtB_loudChunk : rmsLtB loudChunk minAudioRMSThresholdSq = false := by
  rw [rmsLtB, decide_eq_false_iff_not]
  rintro ⟨-, hlt⟩
  rw [rmsSq_loudChunk, minAudioRMSThresholdSq] at hlt
  norm_num at hlt

theorem rmsLtB_silentChunk : rmsLtB silentChunk minAudioRMSThresholdSq = true := by
  rw [rmsLtB, decide_eq_true_eq]
  constructor
  · rw [silentChunk, bytesToInt16_flatten_replicate]
    apply List.ne_nil_of_length_pos
    rw [List.length_replicate]
    norm_num
  · rw [rmsSq_silentChunk, minAudioRMSThresholdSq]
    norm_num

theorem jsToInt16_of_bounds (m : Int) (h1 : -32768 < m) (h2 : m < 32768) :
    jsToInt16 m = m := by
  simp only [jsToInt16]
  split <;> omega

theorem ratTrunc_intCast (z : ℤ) : ratTrunc (z : ℚ) = z := by
  rw [ratTrunc]
  split <;> simp

/-- C10: in the client PCM encoder, every sample is clamped to [-1, 1] before
scaling by 32768, so a sample at or above +1.0 is stored as -32768 (the value
32768 wraps in 16-bit storage), while samples strictly inside (-1, 1) are
stored as their value times 32768 truncated toward zero, which stays inside
the Int16 range without wrapping. -/
theorem float32ToInt16_clamp_wrap (v : ℚ) :
    (1 ≤ v → float32ToInt16Sample v = -32768)
    ∧ (-1 < v → v < 1 →
        float32ToInt16Sample v = ratTrunc (v * 32768)
        ∧ -32768 < ratTrunc (v * 32768) ∧ ratTrunc (v * 32768) < 32768) := by
  constructor
  · intro h
    have hmin : min 1 v = 1 := min_eq_left h
    have hmax : max (-1 : ℚ) 1 = 1 := by norm_num
    simp only [float32ToInt16Sample, hmin, hmax, one_mul]
    rw [show (32768 : ℚ) = ((32768 : ℤ) : ℚ) by norm_num, ratTrunc_intCast]
    decide
  · intro h1 h2
    have hmin : min 1 v = v := min_eq_right (le_of_lt h2)
    have hmax : max (-1 : ℚ) v = v := max_eq_right (le_of_lt h1)
    have hql : (-32768 : ℚ) < v * 32768 := by nlinarith
    have hqu : v * 32768 < 32768 := by nlinarith
    have hb1 : -32768 < ratTrunc (v * 32768) := by
      simp only [ratTrunc]
      split
      · next h =>
        have := Int.floor_nonneg.mpr h
        omega
      · next h =>
        rw [Int.lt_ceil]
        push_cast
        linarith
    have hb2 : ratTrunc (v * 32768) < 32768 := by
      simp only [ratTrunc]
      split
      · next h =>
        rw [Int.floor_lt]
        push_cast
        linarith
      · next h =>
        have h0 : ⌈v * 32768⌉ ≤ (0 : ℤ) := Int.ceil_le.mpr (by push_cast; linarith [lt_of_not_ge h])
        omega
    refine ⟨?_, hb1, hb2⟩
    simp only [float32ToInt16Sample, hmin, hmax]
    exact jsToInt16_of_bounds _ hb1 hb2

/-- Witness for C10: the full-scale sample 3/2 clamps to 1 and wraps to
-32768, and the in-range sample 1/2 maps to 16384. -/
theorem float32ToInt16_clamp_wrap_witness :
    (1 : ℚ) ≤ 3 / 2 ∧ float32ToInt16Sample (3 / 2) = -32768
    ∧ float32ToInt16Sample (1 / 2) = 16384 := by
  refine ⟨by norm_num, (float32ToInt16_clamp_wrap (3 / 2)).1 (by norm_num), ?_⟩
  have h := ((float32ToInt16_clamp_wrap (1 / 2)).2 (by norm_num) (by norm_num)).1
  rw [h, show (1 / 2 * 32768 : ℚ) = ((16384 : ℤ) : ℚ) by norm_num, ratTrunc_intCast]

/-- C3: a flush whose transcription call fails with a non-retryable error or
exhausts its bounded retries restores the exact snapshot it consumed into
`audioChunks`, prepended before the chunks ingested during the flush, appends
nothing to the transcript, issues no durable transcript write, leaves the
session streaming, and preserves the total pending byte count modulo the
newly ingested chunks. -/
theorem flush_failure_restores_snapshot (env : FlushEnv) (ingested : List (List Nat))
    (ctx : SessionContext)
    (hp : ctx.isProcessing = false)
    (hne : ctx.audioChunks ≠ [])
    (hbytes : requiredFlushBytes ctx.wasSilent ≤ ctx.audioChunks.flatten.length)
    (hloud : rmsLtB ctx.audioChunks.flatten minAudioRMSThresholdSq = false)
    (hfail : (runWhisperWithRetries env.attempts).1 = none) :
    (processAccumulatedAudio env ingested ctx).ctx.audioChunks = ctx.audioChunks ++ ingested
    ∧ (processAccumulatedAudio env ingested ctx).ctx.accumulatedTranscript
        = ctx.accumulatedTranscript
    ∧ (processAccumulatedAudio env ingested ctx).transcriptWrite = none
    ∧ (processAccumulatedAudio env ingested ctx).ctx.finalized = ctx.finalized
    ∧ totalBytes (processAccumulatedAudio env ingested ctx).ctx.audioChunks
        = totalBytes ctx.audioChunks + totalBytes ingested := by
  have hempty : ctx.audioChunks.isEmpty = false := by
    cases h : ctx.audioChunks with
    | nil => exact absurd h hne
    | cons a l => rfl
  have hnotlt : ¬ ctx.audioChunks.flatten.length < requiredFlushBytes ctx.wasSilent :=
    Nat.not_lt.mpr hbytes
  simp only [processAccumulatedAudio, hp, hempty, Bool.or_self, Bool.false_eq_true,
    if_false, if_neg hnotlt, hloud, hfail, totalBytes_append]
  simp [totalBytes_append]

theorem flushCtx_flatten : flushCtx.audioChunks.flatten = loudChunk := by
  show List.flatten [loudChunk] = loudChunk
  simp

theorem flushCtx_bytes :
    requiredFlushBytes flushCtx.wasSilent ≤ flushCtx.audioChunks.flatten.length := by
  rw [flushCtx_flatten, loudChunk_length]
  decide

theorem flushCtx_loud :
    rmsLtB flushCtx.audioChunks.flatten minAudioRMSThresholdSq = false := by
  rw [flushCtx_flatten]
  exact rmsLtB_loudChunk

/-- Witness for C3: the fixture flush against an always-failing backend puts
its 32000-byte snapshot back in front of the chunk ingested meanwhile. -/
theorem flush_failure_restores_snapshot_witness :
    flushCtx.isProcessing = false
    ∧ requiredFlushBytes flushCtx.wasSilent ≤ flushCtx.audioChunks.flatten.length
    ∧ (runWhisperWithRetries envFatal.attempts).1 = none
    ∧ (processAccumulatedAudio envFatal [[9]] flushCtx).ctx.audioChunks
        = flushCtx.audioChunks ++ [[9]] :=
  ⟨rfl, flushCtx_bytes, rfl,
    (flush_failure_restores_snapshot envFatal [[9]] flushCtx rfl (by decide)
      flushCtx_bytes flushCtx_loud rfl).1⟩

/-- C7: a flush whose transcription succeeds but whose returned text is
flagged by the Hallucination Detector discards the text entirely: the
transcript is unchanged, no durable transcript write is issued, the session
stays streaming, and the consumed snapshot is not put back for
reprocessing. -/
theorem flush_discards_hallucinated_text (env : FlushEnv) (ingested : List (List Nat))
    (ctx : SessionContext) (t : String)
    (hp : ctx.isProcessing = false)
    (hne : ctx.audioChunks ≠ [])
    (hbytes : requiredFlushBytes ctx.wasSilent ≤ ctx.audioChunks.flatten.length)
    (hloud : rmsLtB ctx.audioChunks.flatten minAudioRMSThresholdSq = false)
    (hsucc : (runWhisperWithRetries env.attempts).1 = some t)
    (htrim : jsTrim t ≠ "")
    (hhall : detectHallucination (jsTrim t) = true) :
    (processAccumulatedAudio env ingested ctx).ctx.accumulatedTranscript
        = ctx.accumulatedTranscript
    ∧ (processAccumulatedAudio env ingested ctx).transcriptWrite = none
    ∧ (processAccumulatedAudio env ingested ctx).ctx.finalized = ctx.finalized
    ∧ (processAccumulatedAudio env ingested ctx).ctx.audioChunks = ingested := by
  have hempty : ctx.audioChunks.isEmpty = false := by
    cases h : ctx.audioChunks with
    | nil => exact absurd h hne
    | cons a l => rfl
  have hnotlt : ¬ ctx.audioChunks.flatten.length < requiredFlushBytes ctx.wasSilent :=
    Nat.not_lt.mpr hbytes
  simp only [processAccumulatedAudio, hp, hempty, Bool.or_self, Bool.false_eq_true,
    if_false, if_neg hnotlt, hloud, hsucc]
  simp [htrim, hhall]

/-- C8: a flush whose snapshot passes the minimum-size guard but measures
below the absolute silence floor makes zero backend calls, issues no durable
transcript write, leaves the transcript unchanged, and discards the consumed
snapshot instead of restoring it. -/
theorem flush_skips_silence (env : FlushEnv) (ingested : List (List Nat))
    (ctx : SessionContext)
    (hp : ctx.isProcessing = false)
    (hne : ctx.audioChunks ≠ [])
    (hbytes : requiredFlushBytes ctx.wasSilent ≤ ctx.audioChunks.flatten.length)
    (hsilent : rmsLtB ctx.audioChunks.flatten minAudioRMSThresholdSq = true) :
    (processAccumulatedAudio env ingested ctx).backendAttempts = 0
    ∧ (processAccumulatedAudio env ingested ctx).transcriptWrite = none
    ∧ (processAccumulatedAudio env ingested ctx).ctx.accumulatedTranscript
        = ctx.accumulatedTranscript
    ∧ (processAccumulatedAudio env ingested ctx).ctx.audioChunks = ingested := by
  have hempty : ctx.audioChunks.isEmpty = false := by
    cases h : ctx.audioChunks with
    | nil => exact absurd h hne
    | cons a l => rfl
  have hnotlt : ¬ ctx.audioChunks.flatten.length < requiredFlushBytes ctx.wasSilent :=
    Nat.not_lt.mpr hbytes
  simp only [processAccumulatedAudio, hp, hempty, Bool.or_self, Bool.false_eq_true,
    if_false, if_neg hnotlt, hsilent]
  simp

theorem silentCtx_flatten : silentCtx.audioChunks.flatten = silentChunk := by
  show List.flatten [silentChunk] = silentChunk
  simp

/-- Witness for C8: the fixture flush over 32000 silent bytes is skipped with
zero backend attempts and no restore. -/
theorem flush_skips_silence_witness :
    silentCtx.isProcessing = false
    ∧ rmsLtB silentCtx.audioChunks.flatten minAudioRMSThresholdSq = true
    ∧ (processAccumulatedAudio envFatal [] silentCtx).backendAttempts = 0
    ∧ (processAccumulatedAudio envFatal [] silentCtx).ctx.audioChunks = [] := by
  have hsil : rmsLtB silentCtx.audioChunks.flatten minAudioRMSThresholdSq = true := by
    rw [silentCtx_flatten]
    exact rmsLtB_silentChunk
  have hb : requiredFlushBytes silentCtx.wasSilent ≤ silentCtx.audioChunks.flatten.length := by
    rw [silentCtx_flatten, silentChunk_length]
    decide
  have h := flush_skips_silence envFatal [] silentCtx rfl (by decide) hb hsil
  exact ⟨rfl, hsil, h.1, h.2.2.2⟩

/-- On a successful, non-empty, non-hallucinated transcription the flush
appends the trimmed text through `appendTranscript` and issues the matching
durable transcript write. -/
theorem flush_success_appends (env : FlushEnv) (ingested : List (List Nat))
    (ctx : SessionContext) (t : String)
    (hp : ctx.isProcessing = false)
    (hne : ctx.audioChunks ≠ [])
    (hbytes : requiredFlushBytes ctx.wasSilent ≤ ctx.audioChunks.flatten.length)
    (hloud : rmsLtB ctx.audioChunks.flatten minAudioRMSThresholdSq = false)
    (hsucc : (runWhisperWithRetries env.attempts).1 = some t)
    (htrim : jsTrim t ≠ "")
    (hhall : detectHallucination (jsTrim t) = false) :
    (processAccumulatedAudio env ingested ctx).ctx.accumulatedTranscript
        = appendTranscript ctx.accumulatedTranscript (jsTrim t)
    ∧ (processAccumulatedAudio env ingested ctx).transcriptWrite
        = some (appendTranscript ctx.accumulatedTranscript (jsTrim t)) := by
  have hempty : ctx.audioChunks.isEmpty = false := by
    cases h : ctx.audioChunks with
    | nil => exact absurd h hne
    | cons a l => rfl
  have hnotlt : ¬ ctx.audioChunks.flatten.length < requiredFlushBytes ctx.wasSilent :=
    Nat.not_lt.mpr hbytes
  simp only [processAccumulatedAudio, hp, hempty, Bool.or_self, Bool.false_eq_true,
    if_false, if_neg hnotlt, hloud, hsucc]
  simp [htrim, hhall]

/-- C2: the smart-spacing merge always inserts a separating space, even when
the existing transcript ends in terminal punctuation; the source computes
`needsSpace` but both branches of its ternary are the same template string.
At the failing input the transcript Hello. extended with world becomes
Hello. world, space included, although the punctuation test matches. -/
theorem flush_inserts_space_despite_terminal_punct :
    endsInPunct (jsTrim "Hello.") = true
    ∧ appendTranscript "Hello." "world" = "Hello. world"
    ∧ (processAccumulatedAudio (envText "world") [] flushCtx).ctx.accumulatedTranscript
        = "Hello. world" := by
  refine ⟨by decide, by decide, ?_⟩
  have h := (flush_success_appends (envText "world") [] flushCtx "world" rfl (by decide)
    flushCtx_bytes flushCtx_loud rfl (by decide) (by decide)).1
  rw [h]
  decide


theorem lookupCount_setCount_self (m : List (List Char × Nat)) (k : List Char) (v : Nat) :
    lookupCount (setCount m k v) k = v := by
  induction m with
  | nil => simp [setCount, lookupCount]
  | cons p rest ih =>
    obtain ⟨k2, v2⟩ := p
    by_cases h : k2 = k
    · simp [setCount, h, lookupCount]
    · simp [setCount, h, lookupCount, ih]

theorem lookupCount_setCount_ne (m : List (List Char × Nat)) (k n : List Char) (v : Nat)
    (h : k ≠ n) : lookupCount (setCount m k v) n = lookupCount m n := by
  induction m with
  | nil => simp [setCount, lookupCount, h]
  | cons p rest ih =>
    obtain ⟨k2, v2⟩ := p
    by_cases h1 : k2 = k
    · subst h1
      simp [setCount, lookupCount, h]
    · by_cases h2 : k2 = n
      · subst h2
        simp [setCount, lookupCount, Ne.symm h, h1]
      · simp [setCount, h1, lookupCount, h2, ih]

theorem phraseLoop_true_of_count (ps : List (List Char)) (m : List (List Char × Nat))
    (n : List Char) (hlen : 5 < n.length) (hm : lookupCount m n ≤ 2)
    (hcnt : 3 ≤ lookupCount m n + (ps.map trimL).count n) :
    phraseLoop ps m = true := by
  induction ps generalizing m with
  | nil => simp at hcnt; omega
  | cons p rest ih =>
    by_cases hlp : 5 < (trimL p).length
    · by_cases hc : 3 ≤ lookupCount m (trimL p) + 1
      · simp [phraseLoop, hlp, hc]
      · by_cases heq : trimL p = n
        · have hrec : phraseLoop rest (setCount m (trimL p) (lookupCount m (trimL p) + 1)) = true := by
            apply ih
            · rw [heq, lookupCount_setCount_self]
              rw [heq] at hc
              omega
            · rw [heq, lookupCount_setCount_self]
              rw [List.map_cons, List.count_cons, heq] at hcnt
              simp only [beq_self_eq_true, if_true] at hcnt
              omega
          simp [phraseLoop, hlp, hc, hrec]
        · have hrec : phraseLoop rest (setCount m (trimL p) (lookupCount m (trimL p) + 1)) = true := by
            apply ih
            · rw [lookupCount_setCount_ne _ _ _ _ heq]
              exact hm
            · rw [lookupCount_setCount_ne _ _ _ _ heq]
              rw [List.map_cons, List.count_cons] at hcnt
              have hbe : (trimL p == n) = false := by
                rw [beq_eq_false_iff_ne]
                exact heq
              rw [hbe] at hcnt
              simpa using hcnt
          simp [phraseLoop, hlp, hc, hrec]
    · have heq : trimL p ≠ n := by
        intro hx
        rw [hx] at hlp
        exact hlp hlen
      have hrec : phraseLoop rest m = true := by
        apply ih _ hm
        rw [List.map_cons, List.count_cons] at hcnt
        have hbe : (trimL p == n) = false := by
          rw [beq_eq_false_iff_ne]
          exact heq
        rw [hbe] at hcnt
        simpa using hcnt
      simp [phraseLoop, hlp, hrec]

theorem wordScan_cons (w prev : List Char) (cnt : Nat) (ws : List (List Char)) :
    wordScan (w :: ws) prev cnt =
      if w = prev ∧ 2 < w.length then
        (if 5 ≤ cnt + 1 then true else wordScan ws w (cnt + 1))
      else wordScan ws w 1 := rfl

theorem wordScan_replicate (w : List Char) (hw : 2 < w.length) :
    ∀ (k : Nat) (rest : List (List Char)) (cnt : Nat), 1 ≤ k → 5 ≤ cnt + k →
      wordScan (List.replicate k w ++ rest) w cnt = true := by
  intro k
  induction k with
  | zero => intro rest cnt h1 h2; omega
  | succ j ih =>
    intro rest cnt h1 h2
    rw [List.replicate_succ, List.cons_append, wordScan_cons, if_pos ⟨rfl, hw⟩]
    by_cases hc : 5 ≤ cnt + 1
    · rw [if_pos hc]
    · rw [if_neg hc]
      exact ih rest (cnt + 1) (by omega) (by omega)

theorem wordScan_middle (w : List Char) (hw : 2 < w.length) :
    ∀ (pre post : List (List Char)) (prev : List Char) (cnt : Nat),
      wordScan (pre ++ List.replicate 5 w ++ post) prev cnt = true := by
  intro pre
  induction pre with
  | nil =>
    intro post prev cnt
    rw [List.nil_append,
      show List.replicate 5 w = w :: List.replicate 4 w from rfl,
      List.cons_append, wordScan_cons]
    by_cases hp : w = prev ∧ 2 < w.length
    · rw [if_pos hp]
      by_cases hc : 5 ≤ cnt + 1
      · rw [if_pos hc]
      · rw [if_neg hc]
        exact wordScan_replicate w hw 4 post (cnt + 1) (by omega) (by omega)
    · rw [if_neg hp]
      exact wordScan_replicate w hw 4 post 1 (by omega) (by omega)
  | cons p pre2 ih =>
    intro post prev cnt
    rw [List.cons_append, List.cons_append, wordScan_cons]
    by_cases hp : p = prev ∧ 2 < p.length
    · rw [if_pos hp]
      by_cases hc : 5 ≤ cnt + 1
      · rw [if_pos hc]
      · rw [if_neg hc]
        exact ih post p (cnt + 1)
    · rw [if_neg hp]
      exact ih post p 1

theorem wordCheck_of_run (ws : List (List Char)) (w : List Char)
    (pre post : List (List Char)) (hw : 2 < w.length)
    (hws : ws = pre ++ List.replicate 5 w ++ post) :
    wordCheck ws = true := by
  subst hws
  cases pre with
  | nil =>
    rw [List.nil_append,
      show List.replicate 5 w = w :: List.replicate 4 w from rfl, List.cons_append]
    show wordScan (List.replicate 4 w ++ post) w 1 = true
    exact wordScan_replicate w hw 4 post 1 (by omega) (by omega)
  | cons p pre2 =>
    rw [List.cons_append, List.cons_append]
    show wordScan (pre2 ++ List.replicate 5 w ++ post) p 1 = true
    exact wordScan_middle w hw pre2 post p 1

/-- C5 counterexample: a 19-character text in which the word aaa (longer than
2 characters) occurs 5 times consecutively is NOT flagged, because the
detector returns false for any text shorter than 20 characters before either
repetition check runs. -/
theorem detectHallucination_misses_short_text :
    detectHallucination "aaa aaa aaa aaa aaa" = false
    ∧ wordRepeatSpec "aaa aaa aaa aaa aaa" :=
  ⟨by decide, ⟨['a','a','a'], [], [], by decide, by decide⟩⟩

/-- C5 (amended): for every text of length at least 20, the detector returns
true whenever (a) some normalized fragment longer than 5 characters occurs 3
or more times among the terminal-punctuation splits, or (b) some word longer
than 2 characters occurs 5 or more times consecutively; texts shorter than
20 characters are never flagged, even when (b) holds.  In particular the
detector flags the phrase test test test. concatenated 3 times and does not
flag a normal paragraph of distinct sentences. -/
theorem detectHallucination_flags_repetition :
    (∀ text : String, 20 ≤ text.length →
        phraseRepeatSpec text ∨ wordRepeatSpec text →
        detectHallucination text = true)
    ∧ detectHallucination "test test test.test test test.test test test." = true
    ∧ detectHallucination
        "The quick brown fox jumps. A lazy dog sleeps nearby. Birds sing in the morning."
        = false := by
  refine ⟨?_, by decide, by decide⟩
  intro text h20 h
  have hne : ¬(text = "" ∨ text.length < 20) := by
    rintro (h1 | h1)
    · have h0 : text.length = 0 := by rw [h1]; rfl
      omega
    · omega
  rw [detectHallucination, if_neg hne]
  by_cases hp : phraseLoop (jsPhrases text) [] = true
  · simp [hp]
  · rw [Bool.not_eq_true] at hp
    cases h with
    | inl hph =>
      exfalso
      obtain ⟨n, hlen, hcnt⟩ := hph
      have := phraseLoop_true_of_count (jsPhrases text) [] n hlen
        (by simp [lookupCount]) (by simpa [lookupCount] using hcnt)
      rw [hp] at this
      exact Bool.false_ne_true this
    | inr hw =>
      obtain ⟨w, pre, post, hwlen, hws⟩ := hw
      simp only [hp, Bool.false_eq_true, if_false]
      exact wordCheck_of_run _ w pre post hwlen hws

/-- Witness for C5: the tripled phrase is 45 characters long, satisfies the
fragment-repetition criterion, and is flagged. -/
theorem detectHallucination_flags_repetition_witness :
    20 ≤ ("test test test.test test test.test test test." : String).length
    ∧ detectHallucination "test test test.test test test.test test test." = true :=
  ⟨by decide, detectHallucination_flags_repetition.1 _ (by decide)
    (Or.inl ⟨"test test test".data, by decide, by decide⟩)⟩


/-- Witness for C7: the fixture flush whose backend returns the tripled
test phrase leaves the transcript untouched and drops the snapshot. -/
theorem flush_discards_hallucinated_text_witness :
    detectHallucination (jsTrim "test test test.test test test.test test test.") = true
    ∧ (processAccumulatedAudio
        (envText "test test test.test test test.test test test.") [] flushCtx).ctx.accumulatedTranscript
        = flushCtx.accumulatedTranscript
    ∧ (processAccumulatedAudio
        (envText "test test test.test test test.test test test.") [] flushCtx).ctx.audioChunks
        = [] := by
  have hh : detectHallucination (jsTrim "test test test.test test test.test test test.") = true := by
    decide
  have h := flush_discards_hallucinated_text
    (envText "test test test.test test test.test test test.") [] flushCtx
    "test test test.test test test.test test test." rfl (by decide)
    flushCtx_bytes flushCtx_loud rfl (by decide) hh
  exact ⟨hh, h.1, h.2.2.2⟩

theorem addLen_false (ts : List String) :
    addLen false ts = if ts.isEmpty then 0 else 2 + addLen true ts := by
  cases ts with
  | nil => simp [addLen]
  | cons t rest =>
    simp only [addLen, List.isEmpty_cons, if_false, Bool.false_eq_true]
    omega

theorem joinComma_length (ts : List String) : (joinComma ts).length = addLen true ts := by
  induction ts with
  | nil => simp [joinComma, addLen]
  | cons t rest ih =>
    cases rest with
    | nil => simp [joinComma, addLen]
    | cons t2 rest2 =>
      have h2 : (", " : String).length = 2 := rfl
      simp only [joinComma, String.length_append, ih, h2, addLen, addLen_false,
        List.isEmpty_cons]
      omega

theorem startPromptLoop_cons (e : DictionaryEntry) (rest : List DictionaryEntry)
    (isFirst : Bool) (len : Nat) :
    startPromptLoop (e :: rest) isFirst len =
      if len + (if isFirst then (termOf e).length else (termOf e).length + 2) ≤ 224 then
        termOf e :: startPromptLoop rest false
          (len + (if isFirst then (termOf e).length else (termOf e).length + 2))
      else [] := rfl

theorem addLen_cons_eq (isFirst : Bool) (t : String) (ts : List String) :
    addLen isFirst (t :: ts)
      = (if isFirst then t.length else t.length + 2) + addLen false ts := by
  cases isFirst
  · simp only [addLen, if_false, Bool.false_eq_true]
    omega
  · simp [addLen]

theorem startPromptLoop_le (entries : List DictionaryEntry) :
    ∀ (isFirst : Bool) (len : Nat), len ≤ 224 →
      len + addLen isFirst (startPromptLoop entries isFirst len) ≤ 224 := by
  induction entries with
  | nil => intro isFirst len h; simp [startPromptLoop, addLen]; omega
  | cons e rest ih =>
    intro isFirst len h
    rw [startPromptLoop_cons]
    by_cases hfit :
        len + (if isFirst then (termOf e).length else (termOf e).length + 2) ≤ 224
    · rw [if_pos hfit, addLen_cons_eq]
      have := ih false _ hfit
      omega
    · rw [if_neg hfit]
      simp [addLen]
      omega

theorem startPromptLoop_take (entries : List DictionaryEntry) :
    ∀ (isFirst : Bool) (len : Nat),
      ∃ k, startPromptLoop entries isFirst len = (entries.map termOf).take k := by
  induction entries with
  | nil => intro isFirst len; exact ⟨0, by simp [startPromptLoop]⟩
  | cons e rest ih =>
    intro isFirst len
    rw [startPromptLoop_cons]
    by_cases hfit :
        len + (if isFirst then (termOf e).length else (termOf e).length + 2) ≤ 224
    · obtain ⟨k, hk⟩ := ih false
        (len + (if isFirst then (termOf e).length else (termOf e).length + 2))
      exact ⟨k + 1, by rw [if_pos hfit, hk]; simp⟩
    · exact ⟨0, by rw [if_neg hfit]; simp⟩

theorem startPromptLoop_max (entries : List DictionaryEntry) :
    ∀ (isFirst : Bool) (len : Nat),
      (startPromptLoop entries isFirst len).length < entries.length →
      224 < len + addLen isFirst
        ((entries.map termOf).take ((startPromptLoop entries isFirst len).length + 1)) := by
  induction entries with
  | nil => intro isFirst len h; simp [startPromptLoop] at h
  | cons e rest ih =>
    intro isFirst len h
    rw [startPromptLoop_cons] at h ⊢
    by_cases hfit :
        len + (if isFirst then (termOf e).length else (termOf e).length + 2) ≤ 224
    · rw [if_pos hfit] at h ⊢
      rw [List.length_cons] at h
      have hlt : (startPromptLoop rest false
          (len + (if isFirst then (termOf e).length else (termOf e).length + 2))).length
          < rest.length := by
        simpa using h
      have := ih false
        (len + (if isFirst then (termOf e).length else (termOf e).length + 2)) hlt
      rw [List.length_cons, List.map_cons, List.take_succ_cons, addLen_cons_eq]
      omega
    · rw [if_neg hfit] at h ⊢
      rw [List.map_cons]
      simp only [List.length_nil, Nat.zero_add, List.take_succ_cons, List.take_zero,
        addLen_cons_eq, addLen]
      omega

/-- C4: the vocabulary prompt built at session start is the comma-separated
join of each entry contribution (canonical if nonempty, else phrase) taken in
the given priority-descending order; it is a prefix of those contributions
(only whole entries, never truncated mid-entry), its total length is at most
224, and it stops before the first entry whose addition would push the joined
length past 224. -/
theorem startWhisperPrompt_spec (entries : List DictionaryEntry) :
    (entries ≠ [] →
        startWhisperPrompt entries = some (joinComma (startPromptTerms entries)))
    ∧ (joinComma (startPromptTerms entries)).length ≤ 224
    ∧ (∃ k, startPromptTerms entries = (entries.map termOf).take k)
    ∧ ((startPromptTerms entries).length < entries.length →
        224 < (joinComma ((entries.map termOf).take
          ((startPromptTerms entries).length + 1))).length) := by
  refine ⟨?_, ?_, ?_, ?_⟩
  · intro h
    rw [startWhisperPrompt, if_neg ?_]
    rw [List.isEmpty_iff]
    exact h
  · rw [joinComma_length]
    have := startPromptLoop_le entries true 0 (by omega)
    simpa [startPromptTerms] using this
  · exact startPromptLoop_take entries true 0
  · intro hlt
    rw [joinComma_length]
    have := startPromptLoop_max entries true 0 (by simpa [startPromptTerms] using hlt)
    simpa [startPromptTerms] using this

/-- Witness for C4: on five 50-character entries the prompt keeps the first
four (206 characters) and adding the fifth would reach 258. -/
theorem startWhisperPrompt_spec_witness :
    (startPromptTerms overflowDict).length < overflowDict.length
    ∧ (joinComma (startPromptTerms overflowDict)).length ≤ 224
    ∧ 224 < (joinComma ((overflowDict.map termOf).take
        ((startPromptTerms overflowDict).length + 1))).length :=
  ⟨by decide, (startWhisperPrompt_spec overflowDict).2.1,
    (startWhisperPrompt_spec overflowDict).2.2.2 (by decide)⟩


/-- C1 counterexample: after a first finalize completes (durable status
Completed, in-memory session discarded), a second finalize with the same ids
is NOT a silent no-op: it overwrites the durable status to Failed and the
content with the data-loss message, and throws NotFound. -/
theorem finalize_second_call_not_noop :
    ((lookupS (finalizeTranscription envFatal "t1" "u1" finSt).state.db "t1").map
        TranscriptionRecord.status = some .completed)
    ∧ (finalizeTranscription envFatal "t1" "u1"
        (finalizeTranscription envFatal "t1" "u1" finSt).state).result
        = .error (.notFound lostSessionMsg)
    ∧ ((lookupS (finalizeTranscription envFatal "t1" "u1"
        (finalizeTranscription envFatal "t1" "u1" finSt).state).state.db "t1").map
        TranscriptionRecord.status = some .failed)
    ∧ ((lookupS (finalizeTranscription envFatal "t1" "u1"
        (finalizeTranscription envFatal "t1" "u1" finSt).state).state.db "t1").map
        TranscriptionRecord.content = some lostContentMsg) := by
  decide

/-- C1 (amended): finalize is idempotent only while the in-memory session
survives: a repeated call that still finds the session marked finalized is a
silent no-op with no state change; once the session has been discarded, any
further finalize instead reports the session as lost with NotFound (and, as
the counterexample shows, marks the durable row Failed). -/
theorem finalize_idempotent_only_in_memory :
    (∀ (env : FlushEnv) (id uid : String) (st : SystemState) (ctx : SessionContext),
        lookupS st.liveSessions id = some ctx → ctx.userId = uid →
        ctx.finalized = true →
        (finalizeTranscription env id uid st).state = st
        ∧ (finalizeTranscription env id uid st).result = .ok ())
    ∧ (∀ (env : FlushEnv) (id uid : String) (st : SystemState),
        lookupS st.liveSessions id = none →
        (finalizeTranscription env id uid st).result
          = .error (.notFound lostSessionMsg)) := by
  constructor
  · intro env id uid st ctx hmem huid hfin
    constructor <;> simp [finalizeTranscription, hmem, huid, hfin]
  · intro env id uid st hmem
    simp [finalizeTranscription, hmem]

/-- Witness for C1: a second finalize that still finds the in-memory session
already finalized returns ok and changes nothing. -/
theorem finalize_idempotent_only_in_memory_witness :
    lookupS finalizedSt.liveSessions "t1" = some finalizedCtx
    ∧ finalizedCtx.finalized = true
    ∧ (finalizeTranscription envFatal "t1" "u1" finalizedSt).state = finalizedSt
    ∧ (finalizeTranscription envFatal "t1" "u1" finalizedSt).result = .ok () := by
  have h := finalize_idempotent_only_in_memory.1 envFatal "t1" "u1" finalizedSt
    finalizedCtx (by decide) (by decide) (by decide)
  exact ⟨by decide, by decide, h.1, h.2⟩

/-- C6 counterexample: ingest on an already-finalized session fails with
BadRequest (mapped to HTTP 400 by handleApiError), not with Conflict, and
mutates nothing. -/
theorem ingest_finalized_rejected_as_badRequest :
    (ingestAudioChunk envFatal ingArgs finalizedSt).result
        = .error (.badRequest alreadyFinalizedMsg)
    ∧ isConflict (ingestAudioChunk envFatal ingArgs finalizedSt).result = false
    ∧ (ingestAudioChunk envFatal ingArgs finalizedSt).state = finalizedSt := by
  decide

/-- C6 (amended): an ingest naming a session that neither lives in memory
nor is durably Streaming for the caller fails with NotFound; an ingest on a
session owned by a different user fails with NotFound; an ingest on an
already-finalized session fails with BadRequest (not Conflict); in every
failure case neither the registry nor the durable store is mutated and no
chunk is appended. -/
theorem ingest_precondition_errors :
    (∀ (env : FlushEnv) (a : IngestArgs) (st : SystemState),
        lookupS st.liveSessions a.transcriptionId = none →
        (∀ rec, dbFind st.db a.transcriptionId a.userId = some rec →
          rec.status ≠ .streaming) →
        (ingestAudioChunk env a st).result = .error (.notFound notFoundMsg)
        ∧ (ingestAudioChunk env a st).state = st)
    ∧ (∀ (env : FlushEnv) (a : IngestArgs) (st : SystemState) (ctx : SessionContext),
        lookupS st.liveSessions a.transcriptionId = some ctx →
        ctx.userId ≠ a.userId →
        (ingestAudioChunk env a st).result = .error (.notFound notFoundMsg)
        ∧ (ingestAudioChunk env a st).state = st)
    ∧ (∀ (env : FlushEnv) (a : IngestArgs) (st : SystemState) (ctx : SessionContext),
        lookupS st.liveSessions a.transcriptionId = some ctx →
        ctx.userId = a.userId → ctx.finalized = true →
        (ingestAudioChunk env a st).result = .error (.badRequest alreadyFinalizedMsg)
        ∧ (ingestAudioChunk env a st).state = st) := by
  refine ⟨?_, ?_, ?_⟩
  · intro env a st hmem hnost
    cases hdb : dbFind st.db a.transcriptionId a.userId with
    | none => constructor <;> simp [ingestAudioChunk, hmem, hdb]
    | some rec =>
      have hne := hnost rec hdb
      constructor <;> simp [ingestAudioChunk, hmem, hdb, hne]
  · intro env a st ctx hmem huid
    constructor <;> simp [ingestAudioChunk, hmem, huid]
  · intro env a st ctx hmem huid hfin
    constructor <;> simp [ingestAudioChunk, hmem, huid, hfin]

/-- Witness for C6: the fixture ingest against the finalized session yields
BadRequest and leaves the state intact. -/
theorem ingest_precondition_errors_witness :
    lookupS finalizedSt.liveSessions ingArgs.transcriptionId = some finalizedCtx
    ∧ finalizedCtx.finalized = true
    ∧ (ingestAudioChunk envFatal ingArgs finalizedSt).result
        = .error (.badRequest alreadyFinalizedMsg)
    ∧ (ingestAudioChunk envFatal ingArgs finalizedSt).state = finalizedSt := by
  have h := ingest_precondition_errors.2.2 envFatal ingArgs finalizedSt finalizedCtx
    (by decide) (by decide) (by decide)
  exact ⟨by decide, by decide, h.1, h.2⟩

/-- C9: an ingest naming a session absent from the registry whose durable
row is Streaming for the caller succeeds: it reconstructs a buffer whose
pending chunks start empty (so they hold exactly the newly ingested chunk
afterwards), whose transcript is initialized from the durable content, and
whose duration is initialized from the durable durationMs (plus the increment
carried by this very call); the restore is logged, never silent. -/
theorem ingest_restores_streaming_session (env : FlushEnv) (a : IngestArgs)
    (st : SystemState) (rec : TranscriptionRecord)
    (hmem : lookupS st.liveSessions a.transcriptionId = none)
    (hdb : dbFind st.db a.transcriptionId a.userId = some rec)
    (hstream : rec.status = .streaming)
    (hlast : a.isLastChunk = false) :
    (ingestAudioChunk env a st).result = .ok ()
    ∧ LogEvent.sessionRestored a.transcriptionId ∈ (ingestAudioChunk env a st).logs
    ∧ (lookupS (ingestAudioChunk env a st).state.liveSessions a.transcriptionId).map
        SessionContext.audioChunks = some [a.audioData]
    ∧ (lookupS (ingestAudioChunk env a st).state.liveSessions a.transcriptionId).map
        SessionContext.accumulatedTranscript = some rec.content
    ∧ (lookupS (ingestAudioChunk env a st).state.liveSessions a.transcriptionId).map
        SessionContext.totalDurationMs
        = some (rec.durationMs +
            (match a.durationMs with
             | some d => if d ≠ 0 then d else 0
             | none => 0))
    ∧ (lookupS (ingestAudioChunk env a st).state.liveSessions a.transcriptionId).map
        SessionContext.finalized = some false := by
  cases hdur : a.durationMs with
  | none =>
    refine ⟨?_, ?_, ?_, ?_, ?_, ?_⟩ <;>
      simp [ingestAudioChunk, hmem, hdb, hstream, hlast, hdur, lookupS_setS_self]
  | some d =>
    by_cases hd : d = 0
    · subst hd
      refine ⟨?_, ?_, ?_, ?_, ?_, ?_⟩ <;>
        simp [ingestAudioChunk, hmem, hdb, hstream, hlast, hdur, lookupS_setS_self]
    · refine ⟨?_, ?_, ?_, ?_, ?_, ?_⟩ <;>
        simp [ingestAudioChunk, hmem, hdb, hstream, hlast, hdur, hd, lookupS_setS_self]

/-- Witness for C9: the fixture ingest after a simulated restart succeeds and
shows the pre-restart transcript. -/
theorem ingest_restores_streaming_session_witness :
    lookupS restoreSt.liveSessions ingArgs.transcriptionId = none
    ∧ dbFind restoreSt.db ingArgs.transcriptionId ingArgs.userId = some recStreaming
    ∧ (ingestAudioChunk envFatal ingArgs restoreSt).result = .ok ()
    ∧ (lookupS (ingestAudioChunk envFatal ingArgs restoreSt).state.liveSessions
        ingArgs.transcriptionId).map SessionContext.accumulatedTranscript
        = some recStreaming.content := by
  have h := ingest_restores_streaming_session envFatal ingArgs restoreSt recStreaming
    (by decide) (by decide) (by decide) (by decide)
  exact ⟨by decide, by decide, h.1, h.2.2.2.1⟩

end VoiceKeyboard
